import Mathlib

/-!
Verification of the loud-check schema validation engine.

The definitions below are a shallow embedding of the final revision of
src/index.ts (the namespace starting at line 1145, whose exports are the
ones the package ships): the Fail model, the constraint-checker compiler
(minChecker, maxChecker, allowedChecker, regexChecker, integerChecker,
optimize and toFunction), the built-in type registry (array via
collectionType, checked object, default), the schema compiler (define),
the self-reference operation (recurse) and the recursive parse engine
(run2 and run).

Modelling conventions:
- JavaScript values are the inductive type Val. Numbers are modelled as
  integers (no claim involves fractional values); Dates, BigInts and
  user-registered collection classes are outside the model.
- Base instances (objects constructed by classes that define produces)
  are Val.inst; the canonical, possibly cyclic sample instance of a
  compiled class is referenced by name as Val.ref, mirroring JavaScript
  object identity of the single md.sample object per class.
- The process-wide class table (class -> compiled metadata) is an explicit
  Env parameter; the process-wide skip flag is an explicit Bool parameter;
  the warn sink is modelled by returning the list of emitted messages; the
  augment hook is its default (identity).
- run2 can genuinely diverge in JavaScript (a fallback value can re-enter
  the same schema), so the engine takes a fuel parameter and returns none
  when fuel runs out.
-/

namespace LoudCheck

/-- Error codes, mirroring the exported string constants of the source. -/
def TYPE : String := "TYPE"

def MIN : String := "MIN"

def MAX : String := "MAX"

def REQ : String := "REQ"

def ALLOWED : String := "ALLOWED"

def REGEX : String := "REGEX"

def INTEGER : String := "INTEGER"

def UNKNOWN : String := "UNKNOWN"

/-- JavaScript-like runtime values. Val.inst is an object produced by a
class that define produced (an instanceof Base object); Val.ref names the
canonical sample instance of a compiled class, so that cyclic samples made
by recurse stay finite and identity (triple equals) is reference equality. -/
inductive Val where
  | undef : Val
  | null : Val
  | bool (b : Bool) : Val
  | num (n : Int) : Val
  | str (s : String) : Val
  | arr (elems : List Val) : Val
  | obj (fields : List (String × Val)) : Val
  | inst (cls : String) (fields : List (String × Val)) : Val
  | ref (cls : String) : Val

mutual

/-- Structural value equality, modelling the strict equality and
SameValueZero tests the source applies to primitive values (for objects
JavaScript compares identity; the claims only compare primitives and
references, where the two notions agree). -/
def valBeq : Val → Val → Bool
  | .undef, .undef => true
  | .null, .null => true
  | .bool a, .bool b => a == b
  | .num a, .num b => a == b
  | .str a, .str b => a == b
  | .arr a, .arr b => valListBeq a b
  | .obj a, .obj b => valFieldsBeq a b
  | .inst c a, .inst d b => c == d && valFieldsBeq a b
  | .ref c, .ref d => c == d
  | _, _ => false

def valListBeq : List Val → List Val → Bool
  | [], [] => true
  | a :: as0, b :: bs0 => valBeq a b && valListBeq as0 bs0
  | _, _ => false

def valFieldsBeq : List (String × Val) → List (String × Val) → Bool
  | [], [] => true
  | (k, a) :: as0, (l, b) :: bs0 => k == l && valBeq a b && valFieldsBeq as0 bs0
  | _, _ => false

end

/-- A single validation failure. The source class Fail has fields
prefix, code, message; the first field is called path here because the
word prefix is reserved in this development. -/
structure Fail where
  path : String
  code : String
  message : String
deriving DecidableEq, Repr

instance : BEq Val := ⟨valBeq⟩

/-- Source: Fail.withPrefix (final revision, line 1127). It builds a new
Fail whose path IS the argument (the old path is discarded), keeping code
and message. -/
def Fail.withPath (f : Fail) (p : String) : Fail :=
  { path := p, code := f.code, message := f.message }

/-- The required mode of a property: true, false, or the string
"default". An absent required field behaves as true everywhere in the
source (run2 only tests for strict equality with false and "default"),
so the model folds undefined into yes. -/
inductive RequiredMode where
  | yes : RequiredMode
  | no : RequiredMode
  | dflt : RequiredMode
deriving DecidableEq, Repr

/-- A regular expression, modelled as its test predicate on strings plus
its display source (what String(regex) prints). -/
structure Regex where
  test : String → Bool
  source : String

/-- A schema property (source interface Property, final revision). -/
structure Property where
  v : Val
  required : RequiredMode := .yes
  min : Option Int := none
  max : Option Int := none
  allowed : Option (List Val) := none
  fallback : Option Val := none
  integer : Option Bool := none
  regex : Option Regex := none
  custom : Option (Val → Option Fail) := none

/-- A compiled constraint checker. The source compiles closures; the model
stores the same data and interprets it with runChecker. The length / size /
value strategy is fixed by the constructor, chosen at compile time. -/
inductive Checker where
  | minLen (name : String) (m : Int) : Checker
  | minSize (name : String) (m : Int) : Checker
  | minVal (name : String) (m : Int) : Checker
  | maxLen (name : String) (m : Int) : Checker
  | maxSize (name : String) (m : Int) : Checker
  | maxVal (name : String) (m : Int) : Checker
  | allowedC (name : String) (allowed : List Val) : Checker
  | regexC (name : String) (r : Regex) : Checker
  | integerC (name : String) : Checker
  | customC (f : Val → Option Fail) : Checker

/-- The three built-in types of the registry, in descending priority:
array (300000000, a collectionType instance), checked object (200000000),
default (0). No claim exercises addType, so the registry is closed here. -/
inductive TypeId where
  | arrayT : TypeId
  | checkedT : TypeId
  | defaultT : TypeId
deriving DecidableEq, Repr

/-- A compiled field: its property, its compiled checker chain and its
resolved type (source interface Field). -/
structure Field where
  property : Property
  check : List Checker
  type : TypeId

/-- Compiled metadata of one class: the ordered field map and the sample
instance, stored as its field list (nested class-typed samples appear as
Val.ref so cycles stay finite). -/
structure Metadata where
  fields : List (String × Field)
  sampleFields : List (String × Val)

/-- The process-wide class table: class name to compiled metadata. -/
def Env := List (String × Metadata)

/-- First-match association list lookup (insertion order preserved). -/
def lookupStr {α : Type} : List (String × α) → String → Option α
  | [], _ => none
  | (k, v) :: rest, key => if k = key then some v else lookupStr rest key

def Env.find (env : Env) (cls : String) : Option Metadata :=
  lookupStr env cls

/-- JavaScript typeof, with the source refinement that arrays answer
"array" (source typeOf). As in JavaScript, typeof null is "object". -/
def typeOfV : Val → String
  | .undef => "undefined"
  | .null => "object"
  | .bool _ => "boolean"
  | .num _ => "number"
  | .str _ => "string"
  | .arr _ => "array"
  | .obj _ => "object"
  | .inst _ _ => "object"
  | .ref _ => "object"

/-- Is the value an instanceof Base object (a constructed instance or the
canonical sample of a compiled class)? -/
def isInstV : Val → Bool
  | .inst _ _ => true
  | .ref _ => true
  | _ => false

def isArrV : Val → Bool
  | .arr _ => true
  | _ => false

/-- The class of an instance value (source: value.constructor). -/
def clsOfInst : Val → Option String
  | .inst c _ => some c
  | .ref c => some c
  | _ => none

mutual

/-- JavaScript String(v) for the values of the model. Array elements are
joined with commas as Array.prototype.toString does. -/
def valToString : Val → String
  | .undef => "undefined"
  | .null => "null"
  | .bool b => if b then "true" else "false"
  | .num n => toString n
  | .str s => s
  | .arr es => String.intercalate "," (valListToStrings es)
  | .obj _ => "[object Object]"
  | .inst _ _ => "[object Object]"
  | .ref _ => "[object Object]"

def valListToStrings : List Val → List String
  | [] => []
  | e :: rest => valToString e :: valListToStrings rest

end

/-- Property access value[k] on a JavaScript value: own fields of plain
objects and instances; anything else yields undefined. -/
def getField (v : Val) (k : String) : Val :=
  match v with
  | .obj fs => (lookupStr fs k).getD Val.undef
  | .inst _ fs => (lookupStr fs k).getD Val.undef
  | _ => Val.undef

/-- Property access that also resolves sample references through the class
table, used to read fields of the canonical sample instances. -/
def derefField (env : Env) (v : Val) (k : String) : Val :=
  match v with
  | .ref c =>
    match Env.find env c with
    | some md => (lookupStr md.sampleFields k).getD .undef
    | none => .undef
  | _ => getField v k

/-- Source hasProp: typeof(value) === "object" and prop in value. Arrays
own a length property; plain objects and instances own their fields; the
sample reference resolves through the class table. (On null the source
would throw; no compiled schema of the claims reaches that case.) -/
def hasPropB (env : Env) (v : Val) (p : String) : Bool :=
  match v with
  | .arr _ => p = "length"
  | .obj fs => (lookupStr fs p).isSome
  | .inst _ fs => (lookupStr fs p).isSome
  | .ref c =>
    match Env.find env c with
    | some md => (lookupStr md.sampleFields p).isSome
    | none => false
  | _ => false

/-- The numeric length of a value: string length, array length, or a
numeric length field of an object. none models undefined (and undefined
compared with a number is always false, as in JavaScript NaN ordering). -/
def valLength (env : Env) (v : Val) : Option Int :=
  match v with
  | .str s => some s.length
  | .arr es => some es.length
  | .obj fs =>
    match lookupStr fs "length" with
    | some (.num n) => some n
    | _ => none
  | .inst _ fs =>
    match lookupStr fs "length" with
    | some (.num n) => some n
    | _ => none
  | .ref c =>
    match Env.find env c with
    | some md =>
      match lookupStr md.sampleFields "length" with
      | some (.num n) => some n
      | _ => none
    | none => none
  | _ => none

/-- The size used by the size-strategy checkers (source line 1327):
arrays use their length, otherwise the size field of the value. -/
def valSize (env : Env) (v : Val) : Option Int :=
  match v with
  | .arr es => some es.length
  | .obj fs =>
    match lookupStr fs "size" with
    | some (.num n) => some n
    | _ => none
  | .inst _ fs =>
    match lookupStr fs "size" with
    | some (.num n) => some n
    | _ => none
  | .ref c =>
    match Env.find env c with
    | some md =>
      match lookupStr md.sampleFields "size" with
      | some (.num n) => some n
      | _ => none
    | none => none
  | _ => none

/-- Number.isSafeInteger: in the integer model, integral is automatic and
the magnitude bound remains; non-numbers are not safe integers. -/
def isSafeInt : Val → Bool
  | .num n => n.natAbs ≤ 9007199254740991
  | _ => false

/-- Source minChecker (final revision, lines 1313 to 1339): the comparison
strategy is chosen from the SAMPLE at compile time: a string sample or a
sample owning a length property compiles a length bound, a sample owning a
size property compiles a size bound, anything else a value bound. -/
def compileMin (env : Env) (name : String) (sample : Val) (m : Option Int) : Option Checker :=
  match m with
  | none => none
  | some mv =>
    if typeOfV sample = "string" ∨ hasPropB env sample "length" then some (.minLen name mv)
    else if hasPropB env sample "size" then some (.minSize name mv)
    else some (.minVal name mv)

/-- Source maxChecker (final revision, lines 1341 to 1366). -/
def compileMax (env : Env) (name : String) (sample : Val) (m : Option Int) : Option Checker :=
  match m with
  | none => none
  | some mv =>
    if typeOfV sample = "string" ∨ hasPropB env sample "length" then some (.maxLen name mv)
    else if hasPropB env sample "size" then some (.maxSize name mv)
    else some (.maxVal name mv)

/-- Source allowedChecker. -/
def compileAllowed (name : String) (allowed : Option (List Val)) : Option Checker :=
  match allowed with
  | none => none
  | some al => some (.allowedC name al)

/-- Source regexChecker. -/
def compileRegex (name : String) (r : Option Regex) : Option Checker :=
  match r with
  | none => none
  | some re => some (.regexC name re)

/-- Source integerChecker: enabled by default, only for numeric samples. -/
def compileInteger (name : String) (sample : Val) (integer : Option Bool) : Option Checker :=
  if integer = some false then none
  else if typeOfV sample = "number" then some (.integerC name)
  else none

/-- Source optimize and toFunction (final revision, lines 1414 to 1440):
the compiled chain in its fixed order min, max, allowed, regex, integer,
custom, with inapplicable checkers omitted entirely. The two branches of
toFunction on required are identical in the final revision, so the chain
alone is the compiled check function. -/
def compileChecks (env : Env) (name : String) (sample : Val) (p : Property) : List Checker :=
  ([compileMin env name sample p.min,
    compileMax env name sample p.max,
    compileAllowed name p.allowed,
    compileRegex name p.regex,
    compileInteger name sample p.integer,
    p.custom.map .customC] : List (Option Checker)).reduceOption

/-- Interpret one compiled checker on a runtime value, producing the
failure the source closure would return. -/
def runChecker (env : Env) (c : Checker) (v : Val) : Option Fail :=
  match c with
  | .minLen name m =>
    match valLength env v with
    | some l =>
      if l < m then
        some ⟨name, MIN, "length of " ++ toString l ++ " < minimum length of " ++ toString m⟩
      else none
    | none => none
  | .minSize name m =>
    match valSize env v with
    | some l =>
      if l < m then
        some ⟨name, MIN, "size of " ++ toString l ++ " < minimum size of " ++ toString m⟩
      else none
    | none => none
  | .minVal name m =>
    match v with
    | .num n =>
      if n < m then
        some ⟨name, MIN, "value of " ++ toString n ++ " < minimum value of " ++ toString m⟩
      else none
    | _ => none
  | .maxLen name m =>
    match valLength env v with
    | some l =>
      if l > m then
        some ⟨name, MAX, "length of " ++ toString l ++ " > maximum length of " ++ toString m⟩
      else none
    | none => none
  | .maxSize name m =>
    match valSize env v with
    | some l =>
      if l > m then
        some ⟨name, MAX, "size of " ++ toString l ++ " > maximum size of " ++ toString m⟩
      else none
    | none => none
  | .maxVal name m =>
    match v with
    | .num n =>
      if n > m then
        some ⟨name, MAX, "value of " ++ toString n ++ " > maximum value of " ++ toString m⟩
      else none
    | _ => none
  | .allowedC name al =>
    if al.any (fun a => valBeq a v) then none
    else
      some ⟨name, ALLOWED,
        "invalid value: " ++ valToString v ++ " - valid values are: " ++ valToString (.arr al)⟩
  | .regexC name re =>
    if re.test (valToString v) then none
    else
      some ⟨name, REGEX,
        "invalid value: " ++ valToString v ++ " - must match " ++ re.source⟩
  | .integerC name =>
    if isSafeInt v then none
    else some ⟨name, INTEGER, "value of " ++ valToString v ++ " is not a safe integer"⟩
  | .customC f => f v

/-- The compiled field check: run every checker of the chain and keep the
failures in chain order (source: passes.map applied then filtered). -/
def runChecks (env : Env) (cs : List Checker) (v : Val) : List Fail :=
  cs.filterMap (fun c => runChecker env c v)

/-- Type resolution, source types.find over the registry sorted by
descending priority: array (300000000), checked object (200000000),
default (0, applies to everything). -/
def resolveType (v : Val) : TypeId :=
  if isArrV v then .arrayT
  else if isInstV v then .checkedT
  else .defaultT

/-- Type.defaultTo: the array type makes a fresh empty collection, the
other built-ins return the sample itself. -/
def typeDefaultTo : TypeId → Val → Val
  | .arrayT, _ => .arr []
  | .checkedT, sample => sample
  | .defaultT, sample => sample

/-- The string-or-boolean result of Type.mismatch in the final revision:
a string is a hard type error, true means already valid (use as is),
false means proceed to parse. -/
inductive StrB where
  | s (text : String) : StrB
  | b (flag : Bool) : StrB
deriving DecidableEq, Repr

/-- Type.mismatch of the three built-in types (final revision): the array
type (a collectionType named array) demands an array; the checked-object
type answers true on instances and demands an object otherwise; the
default type compares typeof of sample and input. -/
def typeMismatch (t : TypeId) (json : Val) (sample : Val) : StrB :=
  match t with
  | .arrayT =>
    if isArrV json then .b false
    else .s ("expected array but got " ++ typeOfV json)
  | .checkedT =>
    if isInstV json then .b true
    else if typeOfV json ≠ "object" then .s ("expected object but got " ++ typeOfV json)
    else .b false
  | .defaultT =>
    if typeOfV sample ≠ typeOfV json then
      .s ("expected " ++ typeOfV sample ++ " but got " ++ typeOfV json)
    else .b false

/-- Compile one declared field (the loop body of define, final revision
lines 1474 to 1482). -/
def compileField (env : Env) (k : String) (p : Property) : Field :=
  { property := p, check := compileChecks env k p.v p, type := resolveType p.v }

/-- Source define, restricted to the compiled artifacts the engine reads:
the ordered field map and the sample instance assembled from the declared
sample values (class mechanics, the unsafe construction flag and augment
are outside the model). The new class shadows any earlier one of the same
name. -/
def defineSchema (env : Env) (cls : String) (schema : List (String × Property)) : Env :=
  let fields := schema.map (fun kp => (kp.1, compileField env kp.1 kp.2))
  let sampleFields := schema.map (fun kp => (kp.1, kp.2.v))
  (cls, { fields := fields, sampleFields := sampleFields }) :: env

/-- The recompiled field recurse installs: the property with the new
sample value, the checker chain recompiled from it, and the type
re-resolved against it (source lines 1535 to 1538). -/
def recurseField (env : Env) (key : String) (value : Val) (fld : Field) : Field :=
  let p := { fld.property with v := value }
  { property := p, check := compileChecks env key value p, type := resolveType value }

/-- The metadata update recurse performs on the class being mutated: the
named field of the sample instance is replaced by the new value and only
the named compiled field is recompiled; every other field and sample
entry is untouched. -/
def recurseMd (env : Env) (key : String) (value : Val) (md : Metadata) : Metadata :=
  { fields := md.fields.map (fun kf =>
      if kf.1 = key then (kf.1, recurseField env key value kf.2) else kf),
    sampleFields := md.sampleFields.map (fun kv =>
      if kv.1 = key then (kv.1, value) else kv) }

/-- Source recurse (final revision, lines 1531 to 1539): replace the named
sample value of the named field on the sample instance of the class, then
recompile the property sample, check chain and resolved type of exactly
that field, in place.
Nothing else in the class table changes. -/
def recurse (env : Env) (cls : String) (key : String) (value : Val) : Env :=
  env.map (fun entry =>
    if entry.1 = cls then (entry.1, recurseMd env key value entry.2) else entry)

/-- The missing test of run2: a field value is missing when it is
undefined or null. -/
def isMissingV : Val → Bool
  | .undef => true
  | .null => true
  | _ => false

/-- Outcome of a parse attempt (source Success or Failure): by
construction a Failure carries exactly one Fail. -/
inductive Res where
  | success (v : Val) : Res
  | failure (f : Fail) : Res

/-- Outcome of the per-field step of run2: skip the field (continue
without storing), store a value, or abort the whole parse with a Fail. -/
inductive Step where
  | skip : Step
  | put (v : Val) : Step
  | fail (f : Fail) : Step

/-- Outcome of folding run2 over a field list: the accumulated result
fields and warnings, or the first Fail (with the warnings emitted up to
that point). -/
inductive FRes where
  | ok (acc : List (String × Val)) (ws : List String) : FRes
  | fl (f : Fail) (ws : List String) : FRes

mutual

/-- Source run2 (final revision, lines 1541 to 1603). An instanceof Base
input is returned unchanged at once; otherwise the fields are processed
in schema order and the accumulated result is packaged as a new instance
of the class (trusted construction, augment identity). none means the
fuel ran out (the source can genuinely diverge) or the class is unknown
(the source would throw). Fuel is spent on every internal call, so a
given fuel bounds the total number of engine steps. -/
def run2 (skip : Bool) (env : Env) (fuel : Nat) (cls : String) (opfx : String) (json : Val) :
    Option (Res × List String) :=
  match fuel with
  | 0 => none
  | g + 1 =>
    if isInstV json then some (.success json, [])
    else
      match Env.find env cls with
      | none => none
      | some md =>
        let op := if opfx = "" then opfx else opfx ++ "."
        match runFields skip env g md op json md.fields [] [] with
        | none => none
        | some (.ok acc ws) => some (.success (.inst cls acc), ws)
        | some (.fl f ws) => some (.failure f, ws)

/-- The field loop of run2: process the remaining fields, threading the
accumulated result fields and the warnings already emitted. The loop
stops at the first field whose step is a Fail. -/
def runFields (skip : Bool) (env : Env) (fuel : Nat) (md : Metadata) (op : String)
    (json : Val) (fields : List (String × Field)) (acc : List (String × Val))
    (ws : List String) : Option FRes :=
  match fuel with
  | 0 => none
  | g + 1 =>
    match fields with
    | [] => some (.ok acc ws)
    | (k, fld) :: rest =>
      match processField skip env g md op json k fld with
      | none => none
      | some (.fail f, w) => some (.fl f (ws ++ w))
      | some (.skip, w) => runFields skip env g md op json rest acc (ws ++ w)
      | some (.put v, w) => runFields skip env g md op json rest (acc ++ [(k, v)]) (ws ++ w)

/-- The body of run2 for one field (final revision, lines 1548 to 1597):
required or default or skip handling for missing values, the allowed plus
fallback substitution, Type.mismatch, the compiled checker chain, the
already-valid short circuit, Type.parse, and the demotion of a failing
optional nested object to a warning. -/
def processField (skip : Bool) (env : Env) (fuel : Nat) (md : Metadata) (op : String)
    (json : Val) (k : String) (fld : Field) : Option (Step × List String) :=
  match fuel with
  | 0 => none
  | g + 1 =>
    let pfx := op ++ k
    let pr := fld.property
    let sv := (lookupStr md.sampleFields k).getD .undef
    let value := getField json k
    let missing := isMissingV value
    if pr.required == RequiredMode.no && missing then some (.skip, [])
    else if missing && pr.required == RequiredMode.yes then
      some (.fail ⟨pfx, REQ, "missing required property"⟩, [])
    else
      let v1 := if missing then typeDefaultTo fld.type sv else value
      let v2 := match pr.allowed, pr.fallback with
        | some al, some fb => if al.any (fun a => valBeq a v1) then v1 else fb
        | _, _ => v1
      match typeMismatch fld.type v2 sv with
      | .s m => some (.fail ⟨pfx, TYPE, m⟩, [])
      | .b mmB =>
        match runChecks env fld.check v2 with
        | f0 :: _ => some (.fail (f0.withPath pfx), [])
        | [] =>
          if mmB then some (.put v2, [])
          else
            match typeParse skip env g fld.type pfx sv v2 with
            | none => none
            | some (.success v, w) => some (.put v, w)
            | some (.failure f, w) =>
              if isInstV sv && pr.required == RequiredMode.no then
                some (.skip, w ++ ["skipping nested object " ++ f.path ++ " - " ++ f.message])
              else some (.fail f, w)

/-- Type.parse of the built-in types: the default type returns the value
unchanged, the checked-object type recursively runs the engine for the
class of the sample, the array type converts element by element. -/
def typeParse (skip : Bool) (env : Env) (fuel : Nat) (t : TypeId) (pfx : String)
    (sv : Val) (value : Val) : Option (Res × List String) :=
  match fuel with
  | 0 => none
  | g + 1 =>
    match t with
    | .defaultT => some (.success value, [])
    | .checkedT =>
      match clsOfInst sv with
      | none => none
      | some c => run2 skip env g c pfx value
    | .arrayT =>
      let sampleElement := match sv with
        | .arr (e :: _) => e
        | _ => Val.undef
      let et := resolveType sampleElement
      match value with
      | .arr es => parseElems skip env g et pfx sampleElement 0 es [] []
      | _ => none

/-- The element loop of the array collectionType (final revision, lines
1180 to 1206): per element, the mismatch of the element type (a string aborts
with a per-element path), then for instance-shaped elements a recursive
run2 whose failure is either skipped with a warning (skip policy on) or
propagated, and for other elements the parse of the element type, whose
failure silently drops the element. -/
def parseElems (skip : Bool) (env : Env) (fuel : Nat) (et : TypeId) (pfx : String)
    (sampleElement : Val) (i : Nat) (es : List Val) (acc : List Val)
    (ws : List String) : Option (Res × List String) :=
  match fuel with
  | 0 => none
  | g + 1 =>
    match es with
    | [] => some (.success (.arr acc), ws)
    | e :: rest =>
      let ep := pfx ++ "[" ++ toString i ++ "]"
      match typeMismatch et e sampleElement with
      | .s m => some (.failure ⟨ep, TYPE, m⟩, ws)
      | .b _ =>
        match clsOfInst sampleElement with
        | some c =>
          match run2 skip env g c ep e with
          | none => none
          | some (.success v, w) =>
            parseElems skip env g et pfx sampleElement (i + 1) rest (acc ++ [v]) (ws ++ w)
          | some (.failure f, w) =>
            if skip then
              parseElems skip env g et pfx sampleElement (i + 1) rest acc
                (ws ++ w ++ ["skipping element " ++ f.path ++ " - " ++ f.message])
            else some (.failure f, ws ++ w)
        | none =>
          match typeParse skip env g et ep sampleElement e with
          | none => none
          | some (.success v, w) =>
            parseElems skip env g et pfx sampleElement (i + 1) rest (acc ++ [v]) (ws ++ w)
          | some (.failure _, w) =>
            parseElems skip env g et pfx sampleElement (i + 1) rest acc (ws ++ w)

end

/-- Source run: run2 with the empty path. -/
def run (skip : Bool) (env : Env) (fuel : Nat) (cls : String) (json : Val) :
    Option (Res × List String) :=
  run2 skip env fuel cls "" json

/-- The tail of the per-field step after the required phase and the
allowed plus fallback substitution: Type.mismatch, the checker chain,
the already-valid short circuit, Type.parse and the optional-nested
demotion. This is definitionally the corresponding part of processField
(see processField_run below); it is factored out so that laws about the
mismatch and checker stages can be stated for an arbitrary in-flight
value v2. -/
def processValue (skip : Bool) (env : Env) (fuel : Nat) (fld : Field) (pfx : String)
    (sv : Val) (v2 : Val) : Option (Step × List String) :=
  match typeMismatch fld.type v2 sv with
  | .s m => some (.fail ⟨pfx, TYPE, m⟩, [])
  | .b mmB =>
    match runChecks env fld.check v2 with
    | f0 :: _ => some (.fail (f0.withPath pfx), [])
    | [] =>
      if mmB then some (.put v2, [])
      else
        match typeParse skip env fuel fld.type pfx sv v2 with
        | none => none
        | some (.success v, w) => some (.put v, w)
        | some (.failure f, w) =>
          if isInstV sv && fld.property.required == RequiredMode.no then
            some (.skip, w ++ ["skipping nested object " ++ f.path ++ " - " ++ f.message])
          else some (.fail f, w)

/-! Concrete compiled schemas used by the concrete parts of the claims.
Each mirrors a schema of the test suite or a minimal schema exhibiting
the claimed behavior. -/

/-- The min-length schema of the test suite: v with sample "1234567890"
and min 10. -/
def envMin : Env := defineSchema [] "M" [("v", { v := .str "1234567890", min := some 10 })]

/-- The allowed plus fallback schema of the test suite: sample "a",
allowed a b c, fallback "a" (the fallback is in the allowed set). -/
def envFallbackOk : Env := defineSchema [] "A"
  [("v", { v := .str "a", allowed := some [.str "a", .str "b", .str "c"],
           fallback := some (.str "a") })]

/-- An allowed plus fallback schema whose fallback is NOT in the allowed
set: sample "a", allowed b only, fallback "c". -/
def envFallbackBad : Env := defineSchema [] "AB"
  [("v", { v := .str "a", allowed := some [.str "b"], fallback := some (.str "c") })]

/-- A required default field that also declares an allowed set and a
fallback, with the default outside the allowed set. -/
def envDefaultSub : Env := defineSchema [] "S1"
  [("v", { v := .str "a", required := .dflt, allowed := some [.str "b"],
           fallback := some (.str "b") })]

/-- The nested schema pair of the skipping test: cls2 has a string field
s with min 1; cls1 has a required nested o1 and an optional nested o2,
both sampled by the cls2 sample. -/
def envNestedInner : Env := defineSchema [] "cls2" [("s", { v := .str "1", min := some 1 })]

def envNested : Env := defineSchema envNestedInner "cls1"
  [("o1", { v := .ref "cls2" }), ("o2", { v := .ref "cls2", required := .no })]

/-- A nested schema whose outer field carries a custom checker that
always fails, to observe whether the chain runs on an already-valid
(instance) value. -/
def envCustom : Env := defineSchema envNestedInner "cls1c"
  [("o", { v := .ref "cls2",
           custom := some (fun _ => some ⟨"o", "EVEN", "custom says no"⟩) })]

/-- The node schema of the recursive data type test, before the
self-reference is installed: a required string value and an optional
next whose declared sample is null. -/
def envNode : Env := defineSchema [] "Node"
  [("value", { v := .str "" }), ("next", { v := .null, required := .no })]

/-- The node schema after recurse points next back at the node sample. -/
def envNodeRec : Env := recurse envNode "Node" "next" (.ref "Node")

/-- A three-field schema for the first-failure-wins law: a passes, b
fails MIN on the given input, c would fail REQ if it were processed. -/
def schemaFirst : List (String × Property) :=
  [("a", { v := .num 1 }), ("b", { v := .num 1, min := some 0 }), ("c", { v := .num 1 })]

def envFirst : Env := defineSchema [] "W" schemaFirst

def mdFirst : Metadata :=
  { fields := schemaFirst.map (fun kp => (kp.1, compileField [] kp.1 kp.2)),
    sampleFields := schemaFirst.map (fun kp => (kp.1, kp.2.v)) }

/-! Helper lemmas. -/

/-- A successful run2 always returns an instanceof Base value: either the
input already was one, or the result is the freshly constructed instance
of the class. -/
lemma run2_success_isInst {skip : Bool} {env : Env} {fuel : Nat} {cls opfx : String}
    {json v : Val} {ws : List String}
    (h : run2 skip env fuel cls opfx json = some (.success v, ws)) : isInstV v = true := by
  cases fuel with
  | zero => simp [run2] at h
  | succ g =>
    rw [run2] at h
    split at h
    · rename_i hj
      cases h
      exact hj
    · cases hfind : Env.find env cls with
      | none => simp [hfind] at h
      | some md =>
        simp only [hfind] at h
        cases hrf : runFields skip env g md (if opfx = "" then opfx else opfx ++ ".") json
            md.fields [] [] with
        | none => simp [hrf] at h
        | some fr =>
          simp only [hrf] at h
          cases fr with
          | ok acc ws2 =>
            simp only [Option.some.injEq, Prod.mk.injEq, Res.success.injEq] at h
            rcases h with ⟨h1, -⟩
            rw [← h1]
            rfl
          | fl f ws2 => simp at h

/-- processField unfolded: after the required phase and the substitution,
the step is exactly processValue at one unit less fuel. -/
lemma processField_run (skip : Bool) (env : Env) (g : Nat) (md : Metadata) (op : String)
    (json : Val) (k : String) (fld : Field) :
    processField skip env (g + 1) md op json k fld =
      (let pr := fld.property
       let sv := (lookupStr md.sampleFields k).getD .undef
       let value := getField json k
       let missing := isMissingV value
       if pr.required == RequiredMode.no && missing then some (.skip, [])
       else if missing && pr.required == RequiredMode.yes then
         some (.fail ⟨op ++ k, REQ, "missing required property"⟩, [])
       else
         let v1 := if missing then typeDefaultTo fld.type sv else value
         let v2 := match pr.allowed, pr.fallback with
           | some al, some fb => if al.any (fun a => valBeq a v1) then v1 else fb
           | _, _ => v1
         processValue skip env g fld (op ++ k) sv v2) := by
  rw [processField]
  rfl

/-- If the field value is present (not undefined, not null) and no
fallback is declared, the step is processValue on that value. -/
lemma processField_not_missing {skip : Bool} {env : Env} {g : Nat} {md : Metadata}
    {op : String} {json : Val} {k : String} {fld : Field} {v : Val}
    (h1 : getField json k = v) (h2 : isMissingV v = false)
    (h3 : fld.property.fallback = none) :
    processField skip env (g + 1) md op json k fld =
      processValue skip env g fld (op ++ k) ((lookupStr md.sampleFields k).getD .undef) v := by
  rw [processField_run]
  simp only [h1, h2, h3, Bool.and_false, Bool.false_and, Bool.if_false_left,
    Bool.not_false, if_false, Bool.false_eq_true, if_true, Bool.true_and]
  cases fld.property.allowed <;> rfl

/-- If the field value is present, an allowed set and a fallback are both
declared and the value is not in the allowed set, the step is processValue
on the fallback: the substitution happens before the mismatch test and the
checker chain. -/
lemma processField_subst {skip : Bool} {env : Env} {g : Nat} {md : Metadata}
    {op : String} {json : Val} {k : String} {fld : Field} {v : Val} {al : List Val}
    {fb : Val} (h1 : getField json k = v) (h2 : isMissingV v = false)
    (hal : fld.property.allowed = some al) (hfb : fld.property.fallback = some fb)
    (hout : al.any (fun a => valBeq a v) = false) :
    processField skip env (g + 1) md op json k fld =
      processValue skip env g fld (op ++ k) ((lookupStr md.sampleFields k).getD .undef) fb := by
  rw [processField_run]
  simp only [h1, h2, hal, hfb, hout, Bool.and_false, Bool.false_and, Bool.if_false_left,
    Bool.not_false, if_false, Bool.false_eq_true, if_true, Bool.true_and]

/-- If a value is not an instance, it has no constructor class. -/
lemma clsOfInst_eq_none {x : Val} (h : isInstV x = false) : clsOfInst x = none := by
  cases x <;> simp_all [isInstV, clsOfInst]

/-- If processValue on the default value of the field type stores a
value, that value is the default itself: every built-in type either
short-circuits (mismatch true), parses the default back unchanged, or
cannot reach the parse at all. -/
lemma processValue_put_default {skip : Bool} {env : Env} {g : Nat} {fld : Field}
    {pfx : String} {sv : Val} {v : Val} {ws : List String}
    (h : processValue skip env g fld pfx sv (typeDefaultTo fld.type sv) =
      some (.put v, ws)) :
    v = typeDefaultTo fld.type sv := by
  unfold processValue at h
  cases htm : typeMismatch fld.type (typeDefaultTo fld.type sv) sv with
  | s m => simp [htm] at h
  | b mmB =>
    simp only [htm] at h
    cases hrc : runChecks env fld.check (typeDefaultTo fld.type sv) with
    | cons f0 fs => simp [hrc] at h
    | nil =>
      simp only [hrc] at h
      cases mmB with
      | true =>
        simp only [if_true, Option.some.injEq, Prod.mk.injEq, Step.put.injEq] at h
        exact h.1.symm
      | false =>
        simp only [Bool.false_eq_true, if_false] at h
        cases ht : fld.type with
        | defaultT =>
          rw [ht] at h
          cases g with
          | zero => simp [typeParse] at h
          | succ g2 =>
            simp only [typeParse, Option.some.injEq, Prod.mk.injEq, Step.put.injEq] at h
            exact h.1.symm
        | checkedT =>
          rw [ht] at h
          rw [ht] at htm
          have hsv : isInstV sv = false := by
            by_cases hi : isInstV sv
            · simp [typeMismatch, typeDefaultTo, hi] at htm
            · exact Bool.not_eq_true (isInstV sv) |>.mp hi
          cases g with
          | zero => simp [typeParse] at h
          | succ g2 =>
            simp [typeParse, typeDefaultTo, clsOfInst_eq_none hsv] at h
        | arrayT =>
          rw [ht] at h
          cases g with
          | zero => simp [typeParse] at h
          | succ g2 =>
            simp only [typeParse, typeDefaultTo] at h
            cases g2 with
            | zero => simp [parseElems] at h
            | succ g3 =>
              simp only [parseElems, Option.some.injEq, Prod.mk.injEq,
                Step.put.injEq] at h
              exact h.1.symm

/-- A field loop that reports ok had fuel left over: it spent one unit
per field and one on the final empty case. -/
lemma runFields_ok_fuel {skip : Bool} {env : Env} {md : Metadata} {op : String}
    {json : Val} {acc1 : List (String × Val)} {ws1 : List String} :
    ∀ (fs : List (String × Field)) (g : Nat) (acc : List (String × Val))
      (ws : List String),
      runFields skip env g md op json fs acc ws = some (.ok acc1 ws1) →
      fs.length < g := by
  intro fs
  induction fs with
  | nil =>
    intro g acc ws h
    cases g with
    | zero => simp [runFields] at h
    | succ h2 => simp
  | cons kf rest ih =>
    intro g acc ws h
    cases g with
    | zero => simp [runFields] at h
    | succ g2 =>
      rw [runFields] at h
      rcases kf with ⟨k, fld⟩
      cases hpf : processField skip env g2 md op json k fld with
      | none => simp [hpf] at h
      | some sw =>
        rcases sw with ⟨st, w⟩
        cases st with
        | skip =>
          simp only [hpf] at h
          have := ih g2 acc (ws ++ w) h
          simpa using Nat.succ_lt_succ this
        | put v =>
          simp only [hpf] at h
          have := ih g2 (acc ++ [(k, v)]) (ws ++ w) h
          simpa using Nat.succ_lt_succ this
        | fail f => simp [hpf] at h

/-- Processing a concatenated field list whose first part reports ok
continues with the second part from the accumulated state, with the fuel
the first part consumed (one unit per field) subtracted. -/
lemma runFields_append {skip : Bool} {env : Env} {md : Metadata} {op : String}
    {json : Val} {acc1 : List (String × Val)} {ws1 : List String}
    (fs2 : List (String × Field)) :
    ∀ (fs1 : List (String × Field)) (g : Nat) (acc : List (String × Val))
      (ws : List String),
      runFields skip env g md op json fs1 acc ws = some (.ok acc1 ws1) →
      runFields skip env g md op json (fs1 ++ fs2) acc ws =
        runFields skip env (g - fs1.length) md op json fs2 acc1 ws1 := by
  intro fs1
  induction fs1 with
  | nil =>
    intro g acc ws h
    cases g with
    | zero => simp [runFields] at h
    | succ g2 =>
      rw [runFields] at h
      simp only [Option.some.injEq, FRes.ok.injEq] at h
      rw [List.nil_append, h.1, h.2]
      rfl
  | cons kf rest ih =>
    intro g acc ws h
    cases g with
    | zero => simp [runFields] at h
    | succ g2 =>
      rw [runFields] at h
      rcases kf with ⟨k, fld⟩
      rw [List.cons_append, runFields]
      cases hpf : processField skip env g2 md op json k fld with
      | none => simp [hpf] at h
      | some sw =>
        rcases sw with ⟨st, w⟩
        cases st with
        | skip =>
          simp only [hpf] at h ⊢
          rw [ih g2 acc (ws ++ w) h, List.length_cons, Nat.succ_sub_succ]
        | put v =>
          simp only [hpf] at h ⊢
          rw [ih g2 (acc ++ [(k, v)]) (ws ++ w) h, List.length_cons, Nat.succ_sub_succ]
        | fail f => simp [hpf] at h

/-- Looking a key up in a list mapped by a key-preserving pointwise
update: the update is visible exactly at the updated key. -/
lemma lookupStr_map_update {α : Type} (f : α → α) (key : String) :
    ∀ (l : List (String × α)) (k2 : String),
      lookupStr (l.map (fun kv => if kv.1 = key then (kv.1, f kv.2) else kv)) k2 =
        if k2 = key then (lookupStr l k2).map f else lookupStr l k2 := by
  intro l
  induction l with
  | nil =>
    intro k2
    by_cases hkey : k2 = key <;> simp [lookupStr, hkey]
  | cons kv rest ih =>
    intro k2
    rcases kv with ⟨k0, v0⟩
    simp only [List.map_cons]
    by_cases h0 : k0 = key
    · rw [if_pos h0]
      simp only [lookupStr]
      by_cases hk : k0 = k2
      · rw [if_pos hk, if_pos (hk.symm.trans h0), if_pos hk]
        rfl
      · have hkey : ¬k2 = key := fun hh => hk (h0.trans hh.symm)
        rw [if_neg hk, ih k2, if_neg hkey, if_neg hkey, if_neg hk]
    · rw [if_neg h0]
      simp only [lookupStr]
      by_cases hk : k0 = k2
      · have hkey : ¬k2 = key := fun hh => h0 (hk.trans hh)
        rw [if_pos hk, if_neg hkey, if_pos hk]
      · rw [if_neg hk, ih k2]
        by_cases hkey : k2 = key
        · rw [if_pos hkey, if_pos hkey, if_neg hk]
        · rw [if_neg hkey, if_neg hkey, if_neg hk]

/-! Claim theorems. -/

/-- C9, counterexample: the claim states that withPrefix prepends the
argument to the existing path. On the Fail with path "a" and the argument
"b", the source operation produces the path "b", not the prepended "ba":
the old path is discarded, so the claim as stated is false. -/
theorem C9_counterexample :
    (Fail.withPath ⟨"a", "X", "m"⟩ "b").path = "b" ∧ ("b" : String) ≠ "b" ++ "a" :=
  ⟨rfl, by decide⟩

/-- C9 (corrected): for every Fail f and every path string p, the
path-prefixing operation produces a new Fail whose path IS p (the
argument replaces the existing path rather than being prepended to it),
with code and message unchanged; f itself is unmodified (the operation
builds a fresh value). -/
theorem C9_withPath_replaces :
    ∀ (f : Fail) (p : String),
      (f.withPath p).path = p ∧ (f.withPath p).code = f.code ∧
        (f.withPath p).message = f.message :=
  fun _ _ => ⟨rfl, rfl, rfl⟩

/-- C10: every instanceof Base input short-circuits run2 at once: the
result is Success carrying exactly that object, with no warnings, no
matter which class the engine was invoked for (the class c of the input
is unrelated to the class cls being parsed) and regardless of the skip
policy and path. All required, type, constraint and nested checks are
bypassed, since not even the class metadata is consulted. -/
theorem C10_instance_short_circuit :
    ∀ (skip : Bool) (env : Env) (g : Nat) (cls opfx c : String)
      (fs : List (String × Val)),
      run2 skip env (g + 1) cls opfx (.inst c fs) = some (.success (.inst c fs), []) := by
  intro skip env g cls opfx c fs
  rw [run2]
  exact rfl

/-- C5: idempotence. Any value v returned by a successful run2 (through
any schema, any fuel) is an instanceof Base object, so running any schema
on v again immediately returns Success with the very same value, with no
warnings: nothing is re-checked and no nested sub-object is re-validated
(one unit of fuel suffices for the second run). -/
theorem C5_idempotent :
    ∀ (skip : Bool) (env : Env) (fuel : Nat) (cls opfx : String) (json v : Val)
      (ws : List String) (skip2 : Bool) (env2 : Env) (g : Nat) (cls2 opfx2 : String),
      run2 skip env fuel cls opfx json = some (.success v, ws) →
      run2 skip2 env2 (g + 1) cls2 opfx2 v = some (.success v, []) := by
  intro skip env fuel cls opfx json v ws skip2 env2 g cls2 opfx2 h
  have hv := run2_success_isInst h
  rw [run2, if_pos hv]

/-- C5 witness: the min-length schema parses an input successfully, and
re-running the engine on the parsed instance returns it unchanged. -/
theorem C5_idempotent_witness :
    run2 false envMin 10 "M" "" (.obj [("v", .str "1234567890")]) =
      some (.success (.inst "M" [("v", .str "1234567890")]), []) ∧
    run2 false envMin 10 "M" "" (.inst "M" [("v", .str "1234567890")]) =
      some (.success (.inst "M" [("v", .str "1234567890")]), []) :=
  ⟨rfl,
    C5_idempotent false envMin 10 "M" "" (.obj [("v", .str "1234567890")])
      (.inst "M" [("v", .str "1234567890")]) [] false envMin 9 "M" "" rfl⟩

/-- C6: for sized samples the compiled min and max checkers bound the
LENGTH, not the value, and the strategy is fixed at compile time from the
sample alone: any sample that is a string (or owns a length property)
compiles the length-comparing checkers, whatever the runtime value later
is. Concretely, the schema with sample "1234567890" and min 10 rejects
"12345" with a MIN Fail whose message is "length of 5 < minimum length
of 10" and accepts "1234567890". -/
theorem C6_min_max_use_length :
    (∀ (env : Env) (name : String) (sv : Val) (m : Int),
      (typeOfV sv = "string" ∨ hasPropB env sv "length" = true) →
      compileMin env name sv (some m) = some (.minLen name m) ∧
        compileMax env name sv (some m) = some (.maxLen name m)) ∧
    run2 false envMin 10 "M" "" (.obj [("v", .str "12345")]) =
      some (.failure ⟨"v", MIN, "length of 5 < minimum length of 10"⟩, []) ∧
    run2 false envMin 10 "M" "" (.obj [("v", .str "1234567890")]) =
      some (.success (.inst "M" [("v", .str "1234567890")]), []) := by
  refine ⟨?_, rfl, rfl⟩
  intro env name sv m h
  constructor
  · simp only [compileMin]
    rw [if_pos h]
  · simp only [compileMax]
    rw [if_pos h]

/-- C6 witness: the length strategy at the concrete sample of the
min-length schema. -/
theorem C6_min_max_use_length_witness :
    compileMin [] "v" (.str "1234567890") (some 10) = some (.minLen "v" 10) ∧
      compileMax [] "v" (.str "1234567890") (some 10) = some (.maxLen "v" 10) :=
  C6_min_max_use_length.1 [] "v" (.str "1234567890") 10 (Or.inl rfl)

/-- C4, counterexample: the claim says a truthy non-string mismatch skips
the constraint-checker chain. In the schema cls1c the field o is a nested
(checked object) field carrying a custom checker that always fails; the
input supplies an already-validated instance, so mismatch answers true
(already valid), yet the engine still runs the chain and the parse fails
with the custom Fail instead of storing the value as is. -/
theorem C4_counterexample :
    typeMismatch .checkedT (.inst "cls2" [("s", .str "hello")]) (.ref "cls2") = .b true ∧
    run2 false envCustom 10 "cls1c" ""
        (.obj [("o", .inst "cls2" [("s", .str "hello")])]) =
      some (.failure ⟨"o", "EVEN", "custom says no"⟩, []) :=
  ⟨rfl, rfl⟩

/-- C4 (corrected): a string result of Type.mismatch is a hard TYPE
failure at the current path, before the checker chain. A truthy
non-string result does NOT skip the constraint-checker chain: the chain
still runs on the value, and its first failure (repathed to the current
path) aborts the parse; only when the chain passes is the value stored
as is, with Type.parse skipped (the step is put v even with no fuel left
for a parse, which shows parse is never invoked). -/
theorem C4_mismatch_semantics :
    ∀ (skip : Bool) (env : Env) (g : Nat) (md : Metadata) (op : String) (json : Val)
      (k : String) (fld : Field) (v : Val),
      getField json k = v → isMissingV v = false → fld.property.fallback = none →
      let sv := (lookupStr md.sampleFields k).getD .undef
      (∀ m, typeMismatch fld.type v sv = .s m →
        processField skip env (g + 1) md op json k fld =
          some (.fail ⟨op ++ k, TYPE, m⟩, [])) ∧
      (typeMismatch fld.type v sv = .b true →
        (runChecks env fld.check v = [] →
          processField skip env (g + 1) md op json k fld = some (.put v, [])) ∧
        (∀ f0 fs, runChecks env fld.check v = f0 :: fs →
          processField skip env (g + 1) md op json k fld =
            some (.fail (f0.withPath (op ++ k)), []))) := by
  intro skip env g md op json k fld v h1 h2 h3 sv
  rw [processField_not_missing h1 h2 h3]
  refine ⟨?_, ?_⟩
  · intro m hm
    simp only [processValue, hm]
  · intro hm
    refine ⟨?_, ?_⟩
    · intro hc
      simp only [processValue, hm, hc, if_true]
    · intro f0 fs hc
      simp only [processValue, hm, hc]

/-- C4 witness: at the custom-checker schema, the mismatch is truthy
non-string and the chain fails, so the step is the custom Fail; on a
chain-passing nested instance (schema cls1, field o1) the value is
stored as is. -/
theorem C4_mismatch_semantics_witness :
    processField false envCustom 1
        { fields := [("o", compileField envNestedInner "o"
            { v := .ref "cls2",
              custom := some (fun _ => some ⟨"o", "EVEN", "custom says no"⟩) })],
          sampleFields := [("o", .ref "cls2")] } ""
        (.obj [("o", .inst "cls2" [("s", .str "hello")])]) "o"
        (compileField envNestedInner "o"
            { v := .ref "cls2",
              custom := some (fun _ => some ⟨"o", "EVEN", "custom says no"⟩) }) =
      some (.fail (Fail.withPath ⟨"o", "EVEN", "custom says no"⟩ "o"), []) :=
  ((C4_mismatch_semantics false envCustom 0
      { fields := [("o", compileField envNestedInner "o"
          { v := .ref "cls2",
            custom := some (fun _ => some ⟨"o", "EVEN", "custom says no"⟩) })],
        sampleFields := [("o", .ref "cls2")] } ""
      (.obj [("o", .inst "cls2" [("s", .str "hello")])]) "o"
      (compileField envNestedInner "o"
          { v := .ref "cls2",
            custom := some (fun _ => some ⟨"o", "EVEN", "custom says no"⟩) })
      (.inst "cls2" [("s", .str "hello")]) rfl rfl rfl).2 rfl).2
    ⟨"o", "EVEN", "custom says no"⟩ [] rfl

/-- C3, counterexample: the claim says a value outside the allowed set
with a fallback declared never fails the ALLOWED constraint and the
result field equals the fallback. In the schema whose fallback "c" is
itself outside the allowed set (allowed is b only), the input "x" is
replaced by the fallback and the parse then FAILS with code ALLOWED on
that very field, no result at all. -/
theorem C3_counterexample :
    run2 false envFallbackBad 10 "AB" "" (.obj [("v", .str "x")]) =
      some (.failure ⟨"v", ALLOWED, "invalid value: c - valid values are: b"⟩, []) :=
  rfl

/-- C3 (corrected): when a field declares both an allowed set and a
fallback and the input value is not in the allowed set, the engine
silently replaces the value with the fallback BEFORE the type-mismatch
check and the checker chain: the field is processed exactly as if the
fallback had been the supplied value (first conjunct). Consequently the
ALLOWED checker itself cannot fail whenever the fallback belongs to the
allowed set (second conjunct), and in the test schema, whose fallback
"a" is allowed and passes the remaining checks, the parse succeeds with
the result field equal to the fallback (third conjunct); but the claim
is not unconditional, since a fallback outside the allowed set still
fails ALLOWED (see the counterexample). -/
theorem C3_allowed_fallback :
    (∀ (skip : Bool) (env : Env) (g : Nat) (md : Metadata) (op : String)
      (json json2 : Val) (k : String) (fld : Field) (v : Val) (al : List Val) (fb : Val),
      fld.property.allowed = some al → fld.property.fallback = some fb →
      getField json k = v → isMissingV v = false →
      al.any (fun a => valBeq a v) = false →
      getField json2 k = fb → isMissingV fb = false →
      processField skip env (g + 1) md op json k fld =
        processField skip env (g + 1) md op json2 k fld) ∧
    (∀ (env : Env) (name : String) (al : List Val) (fb : Val),
      al.any (fun a => valBeq a fb) = true →
      runChecker env (.allowedC name al) fb = none) ∧
    run2 false envFallbackOk 10 "A" "" (.obj [("v", .str "x")]) =
      some (.success (.inst "A" [("v", .str "a")]), []) := by
  refine ⟨?_, ?_, rfl⟩
  · intro skip env g md op json json2 k fld v al fb hal hfb h1 h2 hout h6 h7
    rw [processField_subst h1 h2 hal hfb hout, processField_run]
    simp only [h6, h7, hal, hfb, Bool.and_false, Bool.false_and, Bool.if_false_left,
      Bool.not_false, if_false, Bool.false_eq_true, if_true, Bool.true_and, ite_self]
  · intro env name al fb h
    simp only [runChecker, h, if_true]

/-- C3 witness: with the allowed-plus-fallback schema of the test suite,
processing the out-of-set input "x" equals processing the fallback "a",
and the ALLOWED checker passes on the fallback. -/
theorem C3_allowed_fallback_witness :
    processField false [] 1
        { fields := [("v", compileField [] "v"
            { v := .str "a", allowed := some [.str "a", .str "b", .str "c"],
              fallback := some (.str "a") })],
          sampleFields := [("v", .str "a")] } ""
        (.obj [("v", .str "x")]) "v"
        (compileField [] "v"
          { v := .str "a", allowed := some [.str "a", .str "b", .str "c"],
            fallback := some (.str "a") }) =
      processField false [] 1
        { fields := [("v", compileField [] "v"
            { v := .str "a", allowed := some [.str "a", .str "b", .str "c"],
              fallback := some (.str "a") })],
          sampleFields := [("v", .str "a")] } ""
        (.obj [("v", .str "a")]) "v"
        (compileField [] "v"
          { v := .str "a", allowed := some [.str "a", .str "b", .str "c"],
            fallback := some (.str "a") }) ∧
    runChecker [] (.allowedC "v" [.str "a", .str "b", .str "c"]) (.str "a") = none :=
  ⟨C3_allowed_fallback.1 false [] 0
      { fields := [("v", compileField [] "v"
          { v := .str "a", allowed := some [.str "a", .str "b", .str "c"],
            fallback := some (.str "a") })],
        sampleFields := [("v", .str "a")] } ""
      (.obj [("v", .str "x")]) (.obj [("v", .str "a")]) "v"
      (compileField [] "v"
        { v := .str "a", allowed := some [.str "a", .str "b", .str "c"],
          fallback := some (.str "a") })
      (.str "x") [.str "a", .str "b", .str "c"] (.str "a")
      rfl rfl rfl rfl rfl rfl rfl,
    C3_allowed_fallback.2.1 [] "v" [.str "a", .str "b", .str "c"] (.str "a") rfl⟩

/-- C7, counterexample: the claim says that with the skip-invalid policy
DISABLED the failure of an optional nested object propagates as the
overall Failure. With skip set to false, the optional nested field o2
fails inside (its s is an array, not a string), yet the parse SUCCEEDS:
the field is omitted and the warning sink is invoked; the engine never
consults the skip policy for nested object fields. -/
theorem C7_counterexample :
    run2 false envNested 10 "cls1" ""
        (.obj [("o1", .obj [("s", .str "1")]), ("o2", .obj [("s", .arr [])])]) =
      some (.success (.inst "cls1" [("o1", .inst "cls2" [("s", .str "1")])]),
        ["skipping nested object o2.s - expected string but got array"]) :=
  rfl

/-- C7 (corrected): the demotion of a failing nested object field does
not depend on the skip-invalid policy at all (the skip flag below is
universally quantified on both sides): a failing OPTIONAL nested object
field (sample an instanceof Base value, required false) is always
omitted from the result with a warning carrying the path and message of
the failure, and a failing nested object field of any other required mode
always propagates the failure, short-circuiting the parse. The skip
policy governs only collection elements. -/
theorem C7_nested_object_demotion :
    ∀ (skip : Bool) (env : Env) (g : Nat) (md : Metadata) (op : String) (json : Val)
      (k : String) (fld : Field) (v : Val) (fl : Fail) (w : List String),
      getField json k = v → isMissingV v = false → fld.property.fallback = none →
      isInstV ((lookupStr md.sampleFields k).getD .undef) = true →
      typeMismatch fld.type v ((lookupStr md.sampleFields k).getD .undef) = .b false →
      runChecks env fld.check v = [] →
      typeParse skip env g fld.type (op ++ k)
          ((lookupStr md.sampleFields k).getD .undef) v = some (.failure fl, w) →
      (fld.property.required = .no →
        processField skip env (g + 1) md op json k fld =
          some (.skip,
            w ++ ["skipping nested object " ++ fl.path ++ " - " ++ fl.message])) ∧
      (fld.property.required ≠ .no →
        processField skip env (g + 1) md op json k fld = some (.fail fl, w)) := by
  intro skip env g md op json k fld v fl w h1 h2 h3 hinst hmm hchecks htp
  rw [processField_not_missing h1 h2 h3]
  constructor
  · intro hreq
    simp only [processValue, hmm, hchecks, htp, hinst, hreq, Bool.false_eq_true, if_false,
      beq_self_eq_true, Bool.and_true, if_true]
  · intro hreq
    have hb : (fld.property.required == RequiredMode.no) = false := by
      cases hr : fld.property.required <;> simp_all
    simp only [processValue, hmm, hchecks, htp, hb, Bool.and_false, Bool.false_eq_true,
      if_false]

/-- C7 witness: the optional nested field o2 of the skipping test, with
the skip policy off, is demoted to a warning (first conjunct of the
theorem applied at concrete arguments). -/
theorem C7_nested_object_demotion_witness :
    processField false envNested 9
        { fields := [("o2", compileField envNestedInner "o2"
            { v := .ref "cls2", required := .no })],
          sampleFields := [("o2", .ref "cls2")] } ""
        (.obj [("o2", .obj [("s", .arr [])])]) "o2"
        (compileField envNestedInner "o2" { v := .ref "cls2", required := .no }) =
      some (.skip, ["skipping nested object o2.s - expected string but got array"]) :=
  (C7_nested_object_demotion false envNested 8
      { fields := [("o2", compileField envNestedInner "o2"
          { v := .ref "cls2", required := .no })],
        sampleFields := [("o2", .ref "cls2")] } ""
      (.obj [("o2", .obj [("s", .arr [])])]) "o2"
      (compileField envNestedInner "o2" { v := .ref "cls2", required := .no })
      (.obj [("s", .arr [])])
      ⟨"o2.s", TYPE, "expected string but got array"⟩ []
      rfl rfl rfl rfl rfl rfl rfl).1 rfl

/-- C1, counterexample: the claim says required default plus missing
input makes the result field equal Type.defaultTo of the sample. In the
schema whose default "a" lies outside its allowed set (with fallback
"b" declared), the missing field is first defaulted to "a" but then the
allowed-fallback substitution replaces it, and the successful result
field is "b", not the default "a". -/
theorem C1_counterexample :
    run2 false envDefaultSub 10 "S1" "" (.obj []) =
      some (.success (.inst "S1" [("v", .str "b")]), []) ∧
    typeDefaultTo (resolveType (.str "a")) (.str "a") = .str "a" ∧
    Val.str "b" ≠ Val.str "a" :=
  ⟨rfl, rfl, by simp⟩

/-- C1 (corrected): the required-mode law for a missing field value
(undefined or null). required false: the step is skip, so the field is
absent from the result, neither null nor defaulted. required true (and
the unset mode behaves as true): the step is a Fail with code REQ at the
current path plus the field name, which run2 returns as the overall
Failure. required default: the value is first set to Type.defaultTo of
the sample and, PROVIDED the field does not also declare both an allowed
set and a fallback (otherwise the substitution may replace the default,
see the counterexample), any value the step stores equals that default. -/
theorem C1_required_mode_law :
    (∀ (skip : Bool) (env : Env) (g : Nat) (md : Metadata) (op : String) (json : Val)
      (k : String) (fld : Field),
      isMissingV (getField json k) = true → fld.property.required = .no →
      processField skip env (g + 1) md op json k fld = some (.skip, [])) ∧
    (∀ (skip : Bool) (env : Env) (g : Nat) (md : Metadata) (op : String) (json : Val)
      (k : String) (fld : Field),
      isMissingV (getField json k) = true → fld.property.required = .yes →
      processField skip env (g + 1) md op json k fld =
        some (.fail ⟨op ++ k, REQ, "missing required property"⟩, [])) ∧
    (∀ (skip : Bool) (env : Env) (fuel : Nat) (md : Metadata) (op : String) (json : Val)
      (k : String) (fld : Field) (v : Val) (ws : List String),
      isMissingV (getField json k) = true → fld.property.required = .dflt →
      (fld.property.allowed = none ∨ fld.property.fallback = none) →
      processField skip env fuel md op json k fld = some (.put v, ws) →
      v = typeDefaultTo fld.type ((lookupStr md.sampleFields k).getD .undef)) := by
  refine ⟨?_, ?_, ?_⟩
  · intro skip env g md op json k fld hmiss hreq
    rw [processField_run]
    simp only [hmiss, hreq, beq_self_eq_true, Bool.and_true, if_true]
  · intro skip env g md op json k fld hmiss hreq
    rw [processField_run]
    simp only [hmiss, hreq, beq_self_eq_true, Bool.true_and,
      show (RequiredMode.yes == RequiredMode.no) = false from rfl,
      Bool.false_and, Bool.false_eq_true, if_false, if_true]
  · intro skip env fuel md op json k fld v ws hmiss hreq hguard h
    cases fuel with
    | zero => simp [processField] at h
    | succ g =>
      rw [processField_run] at h
      simp only [hmiss, hreq,
        show (RequiredMode.dflt == RequiredMode.no) = false from rfl,
        show (RequiredMode.dflt == RequiredMode.yes) = false from rfl,
        Bool.false_and, Bool.and_false, Bool.false_eq_true, if_false, if_true] at h
      rcases hguard with hga | hgf
      · rw [hga] at h
        exact processValue_put_default h
      · rw [hgf] at h
        cases hga : fld.property.allowed with
        | none =>
          rw [hga] at h
          exact processValue_put_default h
        | some al =>
          rw [hga] at h
          exact processValue_put_default h

/-- C1 witness: the three required modes at concrete missing inputs: an
optional field is skipped, a required field yields the REQ Fail, and the
value stored for a defaulted field is the sample default. -/
theorem C1_required_mode_law_witness :
    processField false [] 1
        { fields := [("p", compileField [] "p" { v := .str "x", required := .no })],
          sampleFields := [("p", .str "x")] } ""
        (.obj []) "p" (compileField [] "p" { v := .str "x", required := .no }) =
      some (.skip, []) ∧
    processField false [] 1
        { fields := [("p", compileField [] "p" { v := .str "x" })],
          sampleFields := [("p", .str "x")] } ""
        (.obj []) "p" (compileField [] "p" { v := .str "x" }) =
      some (.fail ⟨"p", REQ, "missing required property"⟩, []) ∧
    Val.str "xyzzy" =
      typeDefaultTo (compileField [] "p" { v := .str "xyzzy", required := .dflt }).type
        ((lookupStr [("p", Val.str "xyzzy")] "p").getD .undef) :=
  ⟨C1_required_mode_law.1 false [] 0
      { fields := [("p", compileField [] "p" { v := .str "x", required := .no })],
        sampleFields := [("p", .str "x")] } ""
      (.obj []) "p" (compileField [] "p" { v := .str "x", required := .no }) rfl rfl,
    C1_required_mode_law.2.1 false [] 0
      { fields := [("p", compileField [] "p" { v := .str "x" })],
        sampleFields := [("p", .str "x")] } ""
      (.obj []) "p" (compileField [] "p" { v := .str "x" }) rfl rfl,
    C1_required_mode_law.2.2 false [] 3
      { fields := [("p", compileField [] "p" { v := .str "xyzzy", required := .dflt })],
        sampleFields := [("p", .str "xyzzy")] } ""
      (.obj []) "p" (compileField [] "p" { v := .str "xyzzy", required := .dflt })
      (.str "xyzzy") [] rfl rfl (Or.inl rfl) rfl⟩

/-- C2: first failure wins. If every field of a first segment processes
without failing (accumulating acc1 and warnings ws1) and the next field
fails with the single Fail fl, then the whole field loop stops there: it
reports exactly fl (never a list of failures, FRes.fl carries one Fail),
with only the warnings emitted so far, and the trailing fields fs2 are
never processed (fs2 is universally quantified and does not influence
the outcome). At the run level, run2 returns that Fail as the overall
Failure. -/
theorem C2_first_failure_wins :
    ∀ (skip : Bool) (env : Env) (g : Nat) (md : Metadata) (op : String) (json : Val)
      (fs1 : List (String × Field)) (k : String) (fld : Field)
      (fs2 : List (String × Field)) (acc1 : List (String × Val)) (ws1 : List String)
      (fl : Fail) (w : List String),
      runFields skip env g md op json fs1 [] [] = some (.ok acc1 ws1) →
      processField skip env (g - fs1.length - 1) md op json k fld =
        some (.fail fl, w) →
      runFields skip env g md op json (fs1 ++ (k, fld) :: fs2) [] [] =
        some (.fl fl (ws1 ++ w)) ∧
      (∀ cls, isInstV json = false → Env.find env cls = some md →
        md.fields = fs1 ++ (k, fld) :: fs2 → op = "" →
        run2 skip env (g + 1) cls "" json = some (.failure fl, ws1 ++ w)) := by
  intro skip env g md op json fs1 k fld fs2 acc1 ws1 fl w h1 h2
  have hlen := runFields_ok_fuel fs1 g [] [] h1
  have happ := runFields_append ((k, fld) :: fs2) fs1 g [] [] h1
  have hfuel : g - fs1.length = (g - fs1.length - 1) + 1 := by omega
  have hloop : runFields skip env g md op json (fs1 ++ (k, fld) :: fs2) [] [] =
      some (.fl fl (ws1 ++ w)) := by
    rw [happ, hfuel, runFields, h2]
  refine ⟨hloop, ?_⟩
  intro cls hnotinst hfind hfields hop
  subst hop
  rw [run2, if_neg (by simp [hnotinst]), hfind]
  simp only [reduceIte, hfields, hloop]

/-- C2 witness: in the three-field schema, field a passes, field b fails
MIN, and the loop reports the MIN Fail without processing field c (which
would itself fail REQ, its value being missing). -/
theorem C2_first_failure_wins_witness :
    run2 false envFirst 11 "W" "" (.obj [("a", .num 1), ("b", .num (-5))]) =
      some (.failure ⟨"b", MIN, "value of -5 < minimum value of 0"⟩, []) :=
  (C2_first_failure_wins false envFirst 10 mdFirst "" (.obj [("a", .num 1), ("b", .num (-5))])
      [("a", compileField [] "a" { v := .num 1 })]
      "b" (compileField [] "b" { v := .num 1, min := some 0 })
      [("c", compileField [] "c" { v := .num 1 })]
      [("a", .num 1)] [] ⟨"b", MIN, "value of -5 < minimum value of 0"⟩ []
      (by rfl) (by rfl)).2 "W" rfl rfl rfl rfl

/-- C8: the self-reference operation. First conjunct: recurse leaves
every other class of the table untouched. Second conjunct: on the
mutated class it installs exactly recurseMd, which (third and fourth
conjuncts, via the lookup laws) replaces only the named field of the
sample instance by the new value and recompiles only the named compiled
field (new property sample, new checker chain, re-resolved type),
leaving every other key of both maps unchanged. Fifth conjunct: for the
node schema whose next is pointed back at its own sample, following next
twice from the sample reference returns the sample reference itself, the
reference-equality rendering of sample.next.next being identical to
sample (a genuine cycle). Sixth conjunct: parsing the two-level input
yields a two-level chain whose inner node has no next field at all. -/
theorem C8_recurse_self_reference :
    (∀ (env : Env) (cls key : String) (value : Val) (cls2 : String),
      cls2 ≠ cls → Env.find (recurse env cls key value) cls2 = Env.find env cls2) ∧
    (∀ (env : Env) (cls key : String) (value : Val) (md : Metadata),
      Env.find env cls = some md →
      Env.find (recurse env cls key value) cls = some (recurseMd env key value md)) ∧
    (∀ (env : Env) (key : String) (value : Val) (md : Metadata) (k2 : String),
      lookupStr (recurseMd env key value md).fields k2 =
        (if k2 = key then (lookupStr md.fields k2).map (recurseField env key value)
         else lookupStr md.fields k2)) ∧
    (∀ (env : Env) (key : String) (value : Val) (md : Metadata) (k2 : String),
      lookupStr (recurseMd env key value md).sampleFields k2 =
        (if k2 = key then (lookupStr md.sampleFields k2).map (fun _ => value)
         else lookupStr md.sampleFields k2)) ∧
    derefField envNodeRec (derefField envNodeRec (.ref "Node") "next") "next" =
      .ref "Node" ∧
    run2 false envNodeRec 20 "Node" ""
        (.obj [("value", .str "a"), ("next", .obj [("value", .str "b")])]) =
      some (.success (.inst "Node"
        [("value", .str "a"), ("next", .inst "Node" [("value", .str "b")])]), []) := by
  refine ⟨?_, ?_, ?_, ?_, rfl, rfl⟩
  · intro env cls key value cls2 hne
    show lookupStr (env.map fun entry =>
        if entry.1 = cls then (entry.1, recurseMd env key value entry.2) else entry) cls2 =
      Env.find env cls2
    rw [lookupStr_map_update (recurseMd env key value) cls env cls2, if_neg hne]
    rfl
  · intro env cls key value md hfind
    show lookupStr (env.map fun entry =>
        if entry.1 = cls then (entry.1, recurseMd env key value entry.2) else entry) cls =
      some (recurseMd env key value md)
    rw [lookupStr_map_update (recurseMd env key value) cls env cls]
    rw [if_pos rfl]
    show (Env.find env cls).map (recurseMd env key value) = _
    rw [hfind]
    rfl
  · intro env key value md k2
    show lookupStr (md.fields.map fun kf =>
        if kf.1 = key then (kf.1, recurseField env key value kf.2) else kf) k2 = _
    rw [lookupStr_map_update (recurseField env key value) key md.fields k2]
  · intro env key value md k2
    have h := lookupStr_map_update (fun _ : Val => value) key md.sampleFields k2
    simpa using h

/-- C8 witness: applying the recurse laws at the node schema: an
unrelated class is untouched, and the mutated class now carries the
updated metadata. -/
theorem C8_recurse_self_reference_witness :
    Env.find (recurse envNode "Node" "next" (.ref "Node")) "Other" =
      Env.find envNode "Other" ∧
    Env.find envNodeRec "Node" =
      some (recurseMd envNode "next" (.ref "Node")
        ((Env.find envNode "Node").getD { fields := [], sampleFields := [] })) ∧
    lookupStr (recurseMd envNode "next" (.ref "Node")
        ((Env.find envNode "Node").getD { fields := [], sampleFields := [] })).sampleFields
        "next" =
      some (.ref "Node") :=
  ⟨C8_recurse_self_reference.1 envNode "Node" "next" (.ref "Node") "Other" (by decide),
    C8_recurse_self_reference.2.1 envNode "Node" "next" (.ref "Node")
      ((Env.find envNode "Node").getD { fields := [], sampleFields := [] }) rfl,
    by
      rw [C8_recurse_self_reference.2.2.2.1 envNode "next" (.ref "Node")
        ((Env.find envNode "Node").getD { fields := [], sampleFields := [] }) "next"]
      rfl⟩

end LoudCheck
